import Mathlib

/-!
Verification development for the operations-manager-agent repository
(`src/main.py`, `src/database.py`, `src/app.py`).

The program is a human-in-the-loop quoting workflow: it creates a project
record, calls an extraction service, pauses at human gates
(approve / modify / reject), calls a quoting service, derives service names
from the final quote, runs a deterministic availability check, calls an
email-drafting service, and persists a status string to a SQLite record
after every step.

Modelling conventions:
* JSON values produced by `json.loads` / persisted via `json.dumps` are
  modelled by the inductive `JsonVal` (objects as association lists,
  numbers as rationals).
* The three LLM-backed collaborators (extraction, quoting, email drafting)
  are external services; one run of the workflow observes one outcome per
  call, modelled by the `Oracles` structure (`none` = the call raised).
* Console interaction at a gate is modelled by a script of `GateInput`
  values; a `modify` input carries the raw text the human typed together
  with the outcome of parsing it as JSON (`none` = `json.JSONDecodeError`).
* The SQLite `projects` table is a list of `ProjectRecord`; dates are
  modelled as integer day numbers.
-/

/-- Model of a parsed JSON value (`json.loads` result). Objects are
association lists in insertion order; numbers are rationals. -/
inductive JsonVal where
  | null
  | bool (b : Bool)
  | num (q : Rat)
  | str (s : String)
  | arr (elems : List JsonVal)
  | obj (fields : List (String × JsonVal))

/-- First-match lookup in a JSON object field list (Python `dict` access:
`json.loads` keeps one binding per key). -/
def lookupField : List (String × JsonVal) → String → Option JsonVal
  | [], _ => none
  | (k, v) :: rest, key => if k == key then some v else lookupField rest key

/-- `leadsWith n h` is true when the char list `n` starts the char list `h`. -/
def leadsWith : List Char → List Char → Bool
  | [], _ => true
  | _ :: _, [] => false
  | a :: as, b :: bs => a == b && leadsWith as bs

/-- `hasSub n h` is true when `n` occurs as a contiguous sublist of `h`
(Python `n in h` on strings). -/
def hasSub (needle : List Char) : List Char → Bool
  | [] => needle.isEmpty
  | c :: t => leadsWith needle (c :: t) || hasSub needle t

/-- Python `needle in hay` substring test. -/
def strContains (hay needle : String) : Bool :=
  hasSub needle.data hay.data

/-- ASCII lowercasing of one character (Python `str.lower` restricted to the
ASCII range, which covers every keyword and catalog name in the source). -/
def lowerChar (c : Char) : Char :=
  if c.toNat ≥ 65 ∧ c.toNat ≤ 90 then Char.ofNat (c.toNat + 32) else c

/-- Python `s.lower()`. -/
def strLower (s : String) : String :=
  ⟨s.data.map lowerChar⟩

/-- The keyword test of `check_availability_tool` (`src/main.py` line 162):
`"installation" in s.lower() or "service" in s.lower() or
"tune-up" in s.lower() or "repair" in s.lower()`. -/
def availabilityKeywordHit (service_type : String) : Bool :=
  strContains (strLower service_type) "installation" ||
  strContains (strLower service_type) "service" ||
  strContains (strLower service_type) "tune-up" ||
  strContains (strLower service_type) "repair"

/-- One availability slot (`{"date": str(day), "time": window}`); the date is
modelled as an integer day number, `str(...)` elided. -/
structure Slot where
  date : Int
  time : String
deriving DecidableEq

/-- Result shape of `check_availability_tool`. -/
structure AvailabilityInfo where
  available_slots : List Slot
  note : String
deriving DecidableEq

/-- `check_availability_tool` from `src/main.py` lines 155-177.
`datetime.date.today()` is the explicit parameter `today`. -/
def check_availability_tool (service_type : String) (today : Int) : AvailabilityInfo :=
  if availabilityKeywordHit service_type then
    { available_slots :=
        [ { date := today + 3, time := "9:00 AM - 12:00 PM" },
          { date := today + 5, time := "1:00 PM - 4:00 PM" },
          { date := today + 7, time := "10:00 AM - 1:00 PM" } ],
      note := "These are preliminary availability slots. A representative will confirm exact timing." }
  else
    { available_slots := [],
      note := "No specific service installation/consultation requested, so no availability slots needed." }

/-- The callers join the requested service names with `", "` before calling
the tool (`src/main.py` line 375, `src/app.py` line 191). -/
def joinServiceNames (names : List String) : String :=
  String.intercalate ", " names

example : availabilityKeywordHit "New_System_Installation" = true := by decide
example : availabilityKeywordHit "Carpet_Comb" = false := by decide
example : (check_availability_tool (joinServiceNames ["New_System_Installation"]) 0).available_slots.length = 3 := by decide

/-! ## Pricing catalog (`src/database.py`) -/

/-- One row of the `pricing` table
(`item_type, material, unit_cost, unit`), `src/database.py` lines 17-25. -/
structure PricingEntry where
  item_type : String
  material : String
  unit_cost : Rat
  unit : String
deriving DecidableEq

/-- The composite primary key `(item_type, material)` of a pricing row. -/
def pricingKey (e : PricingEntry) : String × String :=
  (e.item_type, e.material)

/-- `True` when the table already holds a row with the same composite
primary key (the situation in which `INSERT OR IGNORE` ignores). -/
def hasKey (tbl : List PricingEntry) (e : PricingEntry) : Bool :=
  tbl.any fun x => x.item_type == e.item_type && x.material == e.material

/-- `INSERT OR IGNORE INTO pricing VALUES (?, ?, ?, ?)` for one row: append
the row unless a row with the same primary key exists. -/
def insertOrIgnore (tbl : List PricingEntry) (e : PricingEntry) : List PricingEntry :=
  if hasKey tbl e then tbl else tbl ++ [e]

/-- The seed rows of `insert_initial_pricing_data`
(`src/database.py` lines 54-86), in source order. -/
def initialPricingRows : List PricingEntry :=
  [ ⟨"power_unit", "PP650", 1200, "unit"⟩,
    ⟨"power_unit", "PP600", 950, "unit"⟩,
    ⟨"power_unit", "PP500", 700, "unit"⟩,
    ⟨"hose", "30ft_Crushproof", 150, "unit"⟩,
    ⟨"hose", "50ft_Retractable", 350, "unit"⟩,
    ⟨"hose", "60ft_Retractable", 400, "unit"⟩,
    ⟨"attachment_set", "Bare_Floor_Set", 120, "unit"⟩,
    ⟨"attachment_set", "Carpet_Comb_Electric_Pigtail_Set", 250, "unit"⟩,
    ⟨"attachment_set", "Premium_Tool_Kit", 180, "unit"⟩,
    ⟨"part", "HEPA_Filter", 75, "unit"⟩,
    ⟨"part", "Disposable_Bag_Pack", 40, "unit"⟩,
    ⟨"part", "Brush_Roll_Replacement", 60, "unit"⟩,
    ⟨"part", "Motor_Assembly", 450, "unit"⟩,
    ⟨"part", "Low_Voltage_Wiring", 7/2, "linear_ft"⟩,
    ⟨"service", "New_System_Installation", 750, "flat_fee"⟩,
    ⟨"service", "Additional_Inlet_Installation", 250, "unit"⟩,
    ⟨"service", "Service_Call_Diagnostic", 120, "flat_fee"⟩,
    ⟨"service", "Labor_Rate", 85, "per_hour"⟩,
    ⟨"service", "System_Tune_Up", 180, "flat_fee"⟩,
    ⟨"service", "Clog_Removal", 150, "flat_fee"⟩,
    ⟨"service", "Motor_Replacement_Labor", 170, "flat_fee"⟩,
    ⟨"service", "Shipping_Standard", 50, "flat_fee"⟩ ]

/-- `insert_initial_pricing_data` (`src/database.py` lines 45-93):
`executemany("INSERT OR IGNORE INTO pricing VALUES ...", pricing_data)`
applied to the current table contents. -/
def insert_initial_pricing_data (tbl : List PricingEntry) : List PricingEntry :=
  initialPricingRows.foldl insertOrIgnore tbl

/-- `init_db` creates the tables when absent (`CREATE TABLE IF NOT EXISTS`);
on a fresh database the `pricing` table is empty. -/
def init_db_pricing : List PricingEntry := []

theorem hasKey_insertOrIgnore_mono (tbl : List PricingEntry) (x e : PricingEntry)
    (h : hasKey tbl e = true) : hasKey (insertOrIgnore tbl x) e = true := by
  unfold insertOrIgnore
  split
  · exact h
  · unfold hasKey at h ⊢
    simp only [List.any_append, h, Bool.true_or]

theorem hasKey_insertOrIgnore_self (tbl : List PricingEntry) (e : PricingEntry) :
    hasKey (insertOrIgnore tbl e) e = true := by
  unfold insertOrIgnore
  split
  · assumption
  · unfold hasKey
    simp

theorem hasKey_foldl_mono (data : List PricingEntry) (tbl : List PricingEntry)
    (e : PricingEntry) (h : hasKey tbl e = true) :
    hasKey (data.foldl insertOrIgnore tbl) e = true := by
  induction data generalizing tbl with
  | nil => exact h
  | cons d rest ih =>
    exact ih (insertOrIgnore tbl d) (hasKey_insertOrIgnore_mono tbl d e h)

theorem hasKey_foldl_of_mem (data : List PricingEntry) (tbl : List PricingEntry)
    (e : PricingEntry) (h : e ∈ data) :
    hasKey (data.foldl insertOrIgnore tbl) e = true := by
  induction data generalizing tbl with
  | nil => cases h
  | cons d rest ih =>
    rcases List.mem_cons.mp h with rfl | hmem
    · exact hasKey_foldl_mono rest (insertOrIgnore tbl e) e
        (hasKey_insertOrIgnore_self tbl e)
    · exact ih (insertOrIgnore tbl d) hmem

theorem foldl_insertOrIgnore_noop (data tbl : List PricingEntry)
    (h : ∀ e ∈ data, hasKey tbl e = true) :
    data.foldl insertOrIgnore tbl = tbl := by
  induction data with
  | nil => rfl
  | cons d rest ih =>
    have hd : insertOrIgnore tbl d = tbl := by
      unfold insertOrIgnore
      simp [h d (List.mem_cons_self d rest)]
    simp only [List.foldl_cons, hd]
    exact ih fun e he => h e (List.mem_cons_of_mem d he)

theorem insert_initial_pricing_data_idem (tbl : List PricingEntry) :
    insert_initial_pricing_data (insert_initial_pricing_data tbl) =
      insert_initial_pricing_data tbl := by
  unfold insert_initial_pricing_data
  exact foldl_insertOrIgnore_noop initialPricingRows _
    fun e he => hasKey_foldl_of_mem initialPricingRows tbl e he

/-! ## Project record store (`src/database.py` lines 107-155)

The `projects` table is modelled as a list of records in insertion order.
Artifact columns are nullable TEXT columns holding JSON dumps or raw text;
they are modelled structurally (`Option JsonVal` / `Option String`). -/

/-- One row of the `projects` table. `status` is set at creation and by every
update that names it; the `timestamp` column (set only by the column default
at INSERT time) is elided. -/
structure ProjectRecord where
  project_id : String
  customer_request : String
  extracted_details : Option JsonVal := none
  quote_draft : Option JsonVal := none
  final_quote : Option JsonVal := none
  email_draft : Option String := none
  availability_info : Option AvailabilityInfo := none
  status : String

/-- The keyword arguments of one `save_project_state` call: `some v` means
the call names that column with value `v`, `none` means the column is not
named and keeps its stored value. -/
structure ProjectUpdate where
  customer_request : Option String := none
  extracted_details : Option JsonVal := none
  quote_draft : Option JsonVal := none
  final_quote : Option JsonVal := none
  email_draft : Option String := none
  availability_info : Option AvailabilityInfo := none
  status : Option String := none

/-- Effect of the generated `UPDATE projects SET ... WHERE project_id = ?`
on one matching row: each named column receives its new value, every other
column keeps its stored value. -/
def applyUpdate (u : ProjectUpdate) (r : ProjectRecord) : ProjectRecord :=
  { r with
    customer_request := u.customer_request.getD r.customer_request,
    extracted_details :=
      match u.extracted_details with
      | some v => some v
      | none => r.extracted_details,
    quote_draft :=
      match u.quote_draft with
      | some v => some v
      | none => r.quote_draft,
    final_quote :=
      match u.final_quote with
      | some v => some v
      | none => r.final_quote,
    email_draft :=
      match u.email_draft with
      | some v => some v
      | none => r.email_draft,
    availability_info :=
      match u.availability_info with
      | some v => some v
      | none => r.availability_info,
    status := u.status.getD r.status }

/-- `u` names at least one column (an empty kwargs dict would generate
invalid SQL, so every call in the source names at least one). -/
def namesAField (u : ProjectUpdate) : Bool :=
  u.customer_request.isSome || u.extracted_details.isSome || u.quote_draft.isSome ||
  u.final_quote.isSome || u.email_draft.isSome || u.availability_info.isSome ||
  u.status.isSome

/-- The fresh row inserted by `create_new_project`
(`src/database.py` lines 107-119): only `project_id`, `customer_request`
and `status = "pending_extraction"` are set. -/
def newRecord (pid req : String) : ProjectRecord :=
  { project_id := pid, customer_request := req, status := "pending_extraction" }

/-- `create_new_project`: INSERT of the fresh row. The generated uuid is the
explicit parameter `pid`. -/
def create_new_project (db : List ProjectRecord) (pid req : String) : List ProjectRecord :=
  db ++ [newRecord pid req]

/-- `save_project_state` (`src/database.py` lines 121-140): the dynamic
`UPDATE ... WHERE project_id = ?` rewrites every matching row and leaves
every other row unchanged; with no matching row it is a no-op. -/
def save_project_state (db : List ProjectRecord) (pid : String) (u : ProjectUpdate) :
    List ProjectRecord :=
  db.map fun r => if r.project_id = pid then applyUpdate u r else r

/-- `get_project_details` (`src/database.py` lines 142-155):
`SELECT * ... WHERE project_id = ?` with `fetchone`, returning `None` when
no row matches. -/
def get_project_details (db : List ProjectRecord) (pid : String) : Option ProjectRecord :=
  db.find? fun r => r.project_id == pid

/-- One write operation against the `projects` table; the source performs
no other writes to it. -/
inductive DbOp where
  | create (pid req : String)
  | save (pid : String) (u : ProjectUpdate)

/-- Apply one operation to the table. -/
def applyOp (db : List ProjectRecord) : DbOp → List ProjectRecord
  | .create pid req => create_new_project db pid req
  | .save pid u => save_project_state db pid u

/-- Replay a sequence of operations against the table. -/
def runOps (db : List ProjectRecord) : List DbOp → List ProjectRecord
  | [] => db
  | op :: rest => runOps (applyOp db op) rest

/-- The identifiers returned by the `create_new_project` calls of a
sequence of operations. -/
def createdIds (ops : List DbOp) : List String :=
  ops.filterMap fun op =>
    match op with
    | .create pid _ => some pid
    | .save _ _ => none

theorem applyUpdate_project_id (u : ProjectUpdate) (r : ProjectRecord) :
    (applyUpdate u r).project_id = r.project_id := rfl

theorem find?_cons_if {α : Type} (p : α → Bool) (a : α) (l : List α) :
    List.find? p (a :: l) = if p a = true then some a else List.find? p l := by
  cases hpa : p a <;> simp [List.find?_cons, hpa]

theorem get_save_same (db : List ProjectRecord) (pid : String) (u : ProjectUpdate) :
    get_project_details (save_project_state db pid u) pid =
      (get_project_details db pid).map (applyUpdate u) := by
  induction db with
  | nil => rfl
  | cons r t ih =>
    simp only [save_project_state, List.map_cons, get_project_details, find?_cons_if] at ih ⊢
    by_cases h : r.project_id = pid
    · simp [h, applyUpdate_project_id]
    · simpa [h, applyUpdate_project_id] using ih

theorem get_save_other (db : List ProjectRecord) (pid pid2 : String) (u : ProjectUpdate)
    (hne : pid2 ≠ pid) :
    get_project_details (save_project_state db pid u) pid2 =
      get_project_details db pid2 := by
  induction db with
  | nil => rfl
  | cons r t ih =>
    simp only [save_project_state, List.map_cons, get_project_details, find?_cons_if] at ih ⊢
    have hns : pid ≠ pid2 := fun hx => hne hx.symm
    by_cases h : r.project_id = pid
    · simpa [h, applyUpdate_project_id, hns] using ih
    · by_cases h2 : r.project_id = pid2
      · simp [h, h2, hne]
      · simpa [h, h2] using ih

theorem save_unknown_noop (db : List ProjectRecord) (pid : String) (u : ProjectUpdate)
    (h : ∀ r ∈ db, r.project_id ≠ pid) :
    save_project_state db pid u = db := by
  induction db with
  | nil => rfl
  | cons r t ih =>
    have hr : ¬ r.project_id = pid := h r (List.mem_cons_self r t)
    have ht := ih fun x hx => h x (List.mem_cons_of_mem r hx)
    simp only [save_project_state, List.map_cons, if_neg hr]
    simp only [save_project_state] at ht
    rw [ht]

theorem mem_runOps_id (ops : List DbOp) (db : List ProjectRecord) (r : ProjectRecord)
    (h : r ∈ runOps db ops) :
    r.project_id ∈ db.map ProjectRecord.project_id ∨ r.project_id ∈ createdIds ops := by
  induction ops generalizing db with
  | nil => exact Or.inl (List.mem_map_of_mem ProjectRecord.project_id h)
  | cons op rest ih =>
    rcases ih (applyOp db op) h with hin | hin
    · cases op with
      | create pid req =>
        rcases List.mem_map.mp hin with ⟨x, hx, hxid⟩
        rcases List.mem_append.mp hx with hx | hx
        · exact Or.inl (hxid ▸ List.mem_map_of_mem ProjectRecord.project_id hx)
        · rcases List.mem_singleton.mp hx with rfl
          right
          simp [createdIds, ← hxid, newRecord]
      | save pid u =>
        rcases List.mem_map.mp hin with ⟨x, hx, hxid⟩
        rcases List.mem_map.mp hx with ⟨y, hy, hyx⟩
        left
        refine List.mem_map.mpr ⟨y, hy, ?_⟩
        rw [← hxid, ← hyx]
        by_cases hc : y.project_id = pid <;> simp [hc, applyUpdate_project_id]
    · right
      cases op with
      | create pid req =>
        rcases List.mem_filterMap.mp hin with ⟨x, hx, hxv⟩
        exact List.mem_filterMap.mpr ⟨x, List.mem_cons_of_mem _ hx, hxv⟩
      | save pid u =>
        rcases List.mem_filterMap.mp hin with ⟨x, hx, hxv⟩
        exact List.mem_filterMap.mpr ⟨x, List.mem_cons_of_mem _ hx, hxv⟩

/-! ## Human approval gates (`src/main.py` lines 44-88)

`human_approval(data, step_name)` loops over console inputs. The inputs a
run consumes at one gate are modelled as a script. A `modify` entry carries
the text block the human typed (already accumulated with the trailing
newlines, as the source builds `modified_input_str`) together with the
result of `json.loads` on it (`none` models `json.JSONDecodeError`). -/

/-- One console answer at a gate. -/
inductive GateInput where
  | approve
  | reject
  | modify (raw : String) (parsed : Option JsonVal)
  | badChoice

/-- `human_approval` on a JSON value. Returns `none` when the script is
exhausted (the source would block waiting for more input and produce no
result), `some none` for a reject, `some (some v)` for an approved value.
The modify branch dispatches on `isinstance(data, dict)`: when the current
data is a dict (`.obj`), a failed parse prints
`"Invalid JSON. Please try again."` and loops with the data unchanged and a
successful parse recursively approves the parsed value; when the current
data is anything else, the raw text itself (a Python str, hence `.str raw`)
becomes the new data, with no parsing at all. -/
def human_approval : JsonVal → List GateInput → Option (Option JsonVal)
  | _, [] => none
  | d, .approve :: _ => some (some d)
  | _, .reject :: _ => some none
  | d, .modify raw p :: rest =>
    match d, p with
    | .obj fs, none => human_approval (.obj fs) rest
    | .obj _, some m => human_approval m rest
    | _, _ => human_approval (.str raw) rest
  | d, .badChoice :: rest => human_approval d rest

/-- `human_approval` on string data (the email draft): a modify replaces the
data with the raw text, no JSON parsing happens. -/
def humanApprovalStr : String → List GateInput → Option (Option String)
  | _, [] => none
  | s, .approve :: _ => some (some s)
  | _, .reject :: _ => some none
  | _, .modify raw _ :: rest => humanApprovalStr raw rest
  | s, .badChoice :: rest => humanApprovalStr s rest

/-- The successfully parsed replacement values a gate script offers. -/
def modifyVals : List GateInput → List JsonVal
  | [] => []
  | .modify _ (some m) :: rest => m :: modifyVals rest
  | _ :: rest => modifyVals rest

theorem human_approval_result (g : List GateInput) :
    ∀ d v, human_approval d g = some (some v) →
      v = d ∨ v ∈ modifyVals g ∨ ∃ s, v = JsonVal.str s := by
  induction g with
  | nil =>
    intro d v h
    simp [human_approval] at h
  | cons i rest ih =>
    intro d v h
    cases i with
    | approve =>
      left
      have : some (some d) = some (some v) := by simpa [human_approval] using h
      simpa using this.symm
    | reject => simp [human_approval] at h
    | modify raw p =>
      cases d with
      | obj fs =>
        cases p with
        | none =>
          rcases ih (.obj fs) v (by simpa [human_approval] using h) with h2 | h2 | h2
          · exact Or.inl h2
          · exact Or.inr (Or.inl (by simpa [modifyVals] using h2))
          · exact Or.inr (Or.inr h2)
        | some m =>
          rcases ih m v (by simpa [human_approval] using h) with rfl | h2 | h2
          · exact Or.inr (Or.inl (by simp [modifyVals]))
          · exact Or.inr (Or.inl (by
              simp only [modifyVals, List.mem_cons]
              exact Or.inr h2))
          · exact Or.inr (Or.inr h2)
      | null =>
        rcases ih (.str raw) v (by simpa [human_approval] using h) with rfl | h2 | h2
        · exact Or.inr (Or.inr ⟨raw, rfl⟩)
        · refine Or.inr (Or.inl ?_)
          cases p with
          | none => simpa [modifyVals] using h2
          | some m =>
            simp only [modifyVals, List.mem_cons]
            exact Or.inr h2
        · exact Or.inr (Or.inr h2)
      | bool b =>
        rcases ih (.str raw) v (by simpa [human_approval] using h) with rfl | h2 | h2
        · exact Or.inr (Or.inr ⟨raw, rfl⟩)
        · refine Or.inr (Or.inl ?_)
          cases p with
          | none => simpa [modifyVals] using h2
          | some m =>
            simp only [modifyVals, List.mem_cons]
            exact Or.inr h2
        · exact Or.inr (Or.inr h2)
      | num q =>
        rcases ih (.str raw) v (by simpa [human_approval] using h) with rfl | h2 | h2
        · exact Or.inr (Or.inr ⟨raw, rfl⟩)
        · refine Or.inr (Or.inl ?_)
          cases p with
          | none => simpa [modifyVals] using h2
          | some m =>
            simp only [modifyVals, List.mem_cons]
            exact Or.inr h2
        · exact Or.inr (Or.inr h2)
      | str s =>
        rcases ih (.str raw) v (by simpa [human_approval] using h) with rfl | h2 | h2
        · exact Or.inr (Or.inr ⟨raw, rfl⟩)
        · refine Or.inr (Or.inl ?_)
          cases p with
          | none => simpa [modifyVals] using h2
          | some m =>
            simp only [modifyVals, List.mem_cons]
            exact Or.inr h2
        · exact Or.inr (Or.inr h2)
      | arr xs =>
        rcases ih (.str raw) v (by simpa [human_approval] using h) with rfl | h2 | h2
        · exact Or.inr (Or.inr ⟨raw, rfl⟩)
        · refine Or.inr (Or.inl ?_)
          cases p with
          | none => simpa [modifyVals] using h2
          | some m =>
            simp only [modifyVals, List.mem_cons]
            exact Or.inr h2
        · exact Or.inr (Or.inr h2)
    | badChoice =>
      rcases ih d v (by simpa [human_approval] using h) with h2 | h2 | h2
      · exact Or.inl h2
      · exact Or.inr (Or.inl (by simpa [modifyVals] using h2))
      · exact Or.inr (Or.inr h2)

/-! ## Workflow orchestration (`src/main.py` lines 138-398)

`run_quotebot` is modelled as the sequence of observable events of one run:
every `projects`-table write and every collaborator invocation, in program
order. The three LLM calls are external collaborators; the outcome each one
produced during the run is given by `Oracles` (`none` = the call raised, the
matching `except` branch runs). -/

/-- Outcomes of the three collaborator calls during one run. -/
structure Oracles where
  extractRes : Option JsonVal
  quoteRes : Option JsonVal
  emailRes : Option String

/-- One observable event of a run: a `projects`-table write or a
collaborator/tool invocation. -/
inductive Event where
  | db (op : DbOp)
  | callExtraction
  | callQuoting
  | callAvailability
  | callEmailDraft

/-- The `item` entry of one quote line item, as read by
`item.get("item", "")` followed by `.lower()`:
a missing key yields `""`, a non-dict item or a non-string value raises
(`none`). -/
def itemName (it : JsonVal) : Option String :=
  match it with
  | .obj fs =>
    match lookupField fs "item" with
    | some (.str s) => some s
    | some _ => none
    | none => some ""
  | _ => none

/-- The keyword filter of `src/main.py` line 373 (and `src/app.py` line 190)
applied to one line-item name. -/
def quoteItemKeywordHit (n : String) : Bool :=
  strContains (strLower n) "service" ||
  strContains (strLower n) "installation" ||
  strContains (strLower n) "tune-up" ||
  strContains (strLower n) "repair"

/-- Deriving the service-name string passed to `check_availability_tool`
from the final quote (`src/main.py` lines 372-375):
`final_quote.get("quote_items", [])`, filter item names by keyword, join
with `", "`. Returns `none` when the Python code would raise: non-dict
quote (`.get` missing), a `quote_items` value whose iteration yields items
without `.get` (non-empty dict yields its string keys, non-empty string its
characters) or that is not iterable at all (number, bool, null), a non-dict
item, or a non-string name. Iterating an empty dict or an empty string
performs zero iterations, so those complete with an empty name list. -/
def serviceNamesFromQuote (f : JsonVal) : Option String :=
  match f with
  | .obj fs =>
    match (lookupField fs "quote_items").getD (.arr []) with
    | .arr items =>
      (items.mapM itemName).map fun names =>
        joinServiceNames (names.filter quoteItemKeywordHit)
    | .obj [] => some (joinServiceNames [])
    | .str "" => some (joinServiceNames [])
    | _ => none
  | _ => none

/-- The full event sequence of one `run_quotebot` run
(`src/main.py` lines 329-398), given the collaborator outcomes and the three
gate scripts. The generated uuid is the parameter `pid`,
`datetime.date.today()` is `today`. An exhausted gate script or a raised
error while deriving service names ends the sequence (the process produces
no further events). -/
def run_quotebot (req pid : String) (today : Int) (o : Oracles)
    (g1 g2 g3 : List GateInput) : List Event :=
  [Event.db (.create pid req)] ++
  match o.extractRes with
  | none => [.callExtraction, .db (.save pid { status := some "extraction_failed" })]
  | some e =>
    [.callExtraction,
     .db (.save pid { extracted_details := some e, status := some "pending_extraction_approval" })] ++
    match human_approval e g1 with
    | none => []
    | some none => [.db (.save pid { status := some "aborted_by_human" })]
    | some (some a) =>
      [.db (.save pid { extracted_details := some a, status := some "extracted_details_approved" })] ++
      match o.quoteRes with
      | none => [.callQuoting, .db (.save pid { status := some "quote_failed" })]
      | some q =>
        [.callQuoting,
         .db (.save pid { quote_draft := some q, status := some "pending_quote_approval" })] ++
        match human_approval q g2 with
        | none => []
        | some none => [.db (.save pid { status := some "aborted_by_human" })]
        | some (some f) =>
          [.db (.save pid { final_quote := some f, status := some "quote_approved" })] ++
          match serviceNamesFromQuote f with
          | none => []
          | some ns =>
            [.callAvailability,
             .db (.save pid { availability_info := some (check_availability_tool ns today),
                              status := some "availability_checked" })] ++
            match o.emailRes with
            | none => [.callEmailDraft, .db (.save pid { status := some "email_draft_failed" })]
            | some em =>
              [.callEmailDraft,
               .db (.save pid { email_draft := some em, status := some "pending_email_approval" })] ++
              match humanApprovalStr em g3 with
              | none => []
              | some none => [.db (.save pid { status := some "aborted_by_human" })]
              | some (some fe) =>
                [.db (.save pid { email_draft := some fe, status := some "email_approved" }),
                 .db (.save pid { status := some "completed" })]

/-- The sequence of `status` values a run persists, in order: the INSERT of
`create_new_project` writes the status `pending_extraction`, and each
`save_project_state` call that names `status` writes its value. -/
def statusTrace (events : List Event) : List String :=
  events.filterMap fun ev =>
    match ev with
    | .db (.create _ _) => some "pending_extraction"
    | .db (.save _ u) => u.status
    | _ => none

/-- Numeric field access on a persisted quote JSON value. -/
def getNumField (j : JsonVal) (k : String) : Option Rat :=
  match j with
  | .obj fs =>
    match lookupField fs k with
    | some (.num x) => some x
    | _ => none
  | _ => none

/-- The quote arithmetic invariant of the specification: whenever `subtotal`
and `shipping` are both numeric, `total_estimated_cost` equals their sum. -/
def quoteInvariant (j : JsonVal) : Bool :=
  match getNumField j "subtotal", getNumField j "shipping" with
  | some s, some sh => decide (getNumField j "total_estimated_cost" = some (s + sh))
  | _, _ => true

/-- The quote values a run persists into the `quote_draft` column. -/
def quoteDraftWrites (events : List Event) : List JsonVal :=
  events.filterMap fun ev =>
    match ev with
    | .db (.save _ u) => u.quote_draft
    | _ => none

/-- The quote values a run persists into the `final_quote` column. -/
def finalQuoteWrites (events : List Event) : List JsonVal :=
  events.filterMap fun ev =>
    match ev with
    | .db (.save _ u) => u.final_quote
    | _ => none

/-- The `StageStatus` enumeration of the specification, section 4.1:
transcribed from the spec table for comparison with the statuses the code
persists. -/
def spec41StageStatus : List String :=
  [ "pending_extraction", "pending_extraction_approval", "extracted_details_approved",
    "pending_quote_approval", "quote_approved", "availability_checked",
    "pending_email_approval", "completed", "aborted_by_human",
    "extraction_failed", "quote_failed", "email_draft_failed" ]

example :
    statusTrace (run_quotebot "r" "p" 0 ⟨some (.obj []), some (.obj []), some "e"⟩
      [.approve] [.approve] [.approve]) =
    [ "pending_extraction", "pending_extraction_approval", "extracted_details_approved",
      "pending_quote_approval", "quote_approved", "availability_checked",
      "pending_email_approval", "email_approved", "completed" ] := by decide

/-! ## Claim theorems -/

/-- **C4.** The availability check is a deterministic pure function of the
joined service names and the current date: a keyword hit
(installation / service / tune-up / repair, case-insensitive substring)
yields exactly the three slots at `today + 3`, `today + 5`, `today + 7` with
the fixed time windows and the disclaimer note, otherwise the slot list is
empty with the no-slots-needed note; checking `New_System_Installation`
yields exactly the 3 (non-empty) slots and checking `Carpet_Comb` yields an
empty slot list. Determinism is by construction: the model is a function of
`(service_type, today)` only. -/
theorem check_availability_tool_spec (s : String) (t : Int) :
    check_availability_tool s t =
      (cond (availabilityKeywordHit s)
        { available_slots :=
            [ { date := t + 3, time := "9:00 AM - 12:00 PM" },
              { date := t + 5, time := "1:00 PM - 4:00 PM" },
              { date := t + 7, time := "10:00 AM - 1:00 PM" } ],
          note := "These are preliminary availability slots. A representative will confirm exact timing." }
        { available_slots := [],
          note := "No specific service installation/consultation requested, so no availability slots needed." }) ∧
    (check_availability_tool (joinServiceNames ["New_System_Installation"]) t).available_slots =
      [ { date := t + 3, time := "9:00 AM - 12:00 PM" },
        { date := t + 5, time := "1:00 PM - 4:00 PM" },
        { date := t + 7, time := "10:00 AM - 1:00 PM" } ] ∧
    (check_availability_tool (joinServiceNames ["New_System_Installation"]) t).available_slots.length = 3 ∧
    (check_availability_tool (joinServiceNames ["Carpet_Comb"]) t).available_slots = [] := by
  have h1 : availabilityKeywordHit (joinServiceNames ["New_System_Installation"]) = true := by
    decide
  have h2 : availabilityKeywordHit (joinServiceNames ["Carpet_Comb"]) = false := by
    decide
  refine ⟨?_, ?_, ?_, ?_⟩
  · cases hb : availabilityKeywordHit s <;> simp [check_availability_tool, hb]
  · simp [check_availability_tool, h1]
  · simp [check_availability_tool, h1]
  · simp [check_availability_tool, h2]

/-- **C5.** `save_project_state` merges exactly the named fields: the record
with the targeted `project_id` afterwards holds the new value at every named
field and its previous value at every unnamed field, and every record with a
different `project_id` is unchanged. -/
theorem save_project_state_frame (db : List ProjectRecord) (pid pid2 : String)
    (u : ProjectUpdate) (r : ProjectRecord) :
    (get_project_details (save_project_state db pid u) pid =
      (get_project_details db pid).map (applyUpdate u)) ∧
    (pid2 ≠ pid → get_project_details (save_project_state db pid u) pid2 =
      get_project_details db pid2) ∧
    (applyUpdate u r).project_id = r.project_id ∧
    (∀ v, u.customer_request = some v → (applyUpdate u r).customer_request = v) ∧
    (u.customer_request = none → (applyUpdate u r).customer_request = r.customer_request) ∧
    (∀ v, u.extracted_details = some v → (applyUpdate u r).extracted_details = some v) ∧
    (u.extracted_details = none → (applyUpdate u r).extracted_details = r.extracted_details) ∧
    (∀ v, u.quote_draft = some v → (applyUpdate u r).quote_draft = some v) ∧
    (u.quote_draft = none → (applyUpdate u r).quote_draft = r.quote_draft) ∧
    (∀ v, u.final_quote = some v → (applyUpdate u r).final_quote = some v) ∧
    (u.final_quote = none → (applyUpdate u r).final_quote = r.final_quote) ∧
    (∀ v, u.email_draft = some v → (applyUpdate u r).email_draft = some v) ∧
    (u.email_draft = none → (applyUpdate u r).email_draft = r.email_draft) ∧
    (∀ v, u.availability_info = some v → (applyUpdate u r).availability_info = some v) ∧
    (u.availability_info = none → (applyUpdate u r).availability_info = r.availability_info) ∧
    (∀ v, u.status = some v → (applyUpdate u r).status = v) ∧
    (u.status = none → (applyUpdate u r).status = r.status) := by
  refine ⟨get_save_same db pid u, fun h => get_save_other db pid pid2 u h,
    applyUpdate_project_id u r, ?_, ?_, ?_, ?_, ?_, ?_, ?_, ?_, ?_, ?_, ?_, ?_, ?_, ?_⟩ <;>
    first
      | (intro v h; simp [applyUpdate, h])
      | (intro h; simp [applyUpdate, h])

/-- Witness for C5 at a concrete store, update and foreign key. -/
theorem save_project_state_frame_witness :
    ("q" ≠ "p") ∧
    (({ status := some "x" } : ProjectUpdate).status = some "x") ∧
    (get_project_details
        (save_project_state [newRecord "p" "hello"] "p" { status := some "x" }) "q" =
      get_project_details [newRecord "p" "hello"] "q") ∧
    (applyUpdate { status := some "x" } (newRecord "p" "hello")).status = "x" :=
  ⟨by decide, rfl,
   (save_project_state_frame [newRecord "p" "hello"] "p" "q"
      { status := some "x" } (newRecord "p" "hello")).2.1 (by decide),
   ((save_project_state_frame [newRecord "p" "hello"] "p" "q"
      { status := some "x" } (newRecord "p" "hello")).2.2.2.2.2.2.2.2.2.2.2.2.2.2.2.1) "x" rfl⟩

/-- **C8.** Seeding the pricing catalog is idempotent: starting from the
empty table `init_db` leaves behind, any positive number of runs of
`insert_initial_pricing_data` produces the same table as exactly one run,
and the composite key `(item_type, material)` of the resulting table has no
duplicates. -/
theorem insert_initial_pricing_data_idempotent (n : Nat) :
    insert_initial_pricing_data^[n + 1] init_db_pricing =
      insert_initial_pricing_data init_db_pricing ∧
    List.Nodup ((insert_initial_pricing_data init_db_pricing).map pricingKey) := by
  constructor
  · induction n with
    | zero => rfl
    | succ k ih =>
      rw [Function.iterate_succ_apply', ih]
      exact insert_initial_pricing_data_idem init_db_pricing
  · decide

/-- **C9.** A `project_id` that no `create_new_project` call of an operation
sequence returned is absent from the store the sequence builds, and
`get_project_details` returns not-found (`none`) for it, never partial
data. -/
theorem get_unknown_project_not_found (ops : List DbOp) (pid : String)
    (h : pid ∉ createdIds ops) :
    get_project_details (runOps [] ops) pid = none := by
  rw [get_project_details, List.find?_eq_none]
  intro r hr hbeq
  have hmem := mem_runOps_id ops [] r hr
  simp only [List.map_nil, List.not_mem_nil, false_or] at hmem
  have heq : r.project_id = pid := by simpa using hbeq
  rw [heq] at hmem
  exact h hmem

/-- Witness for C9: one created project, lookup of a different id. -/
theorem get_unknown_project_not_found_witness :
    ("b" ∉ createdIds [DbOp.create "a" "req", DbOp.save "a" { status := some "s" }]) ∧
    get_project_details
      (runOps [] [DbOp.create "a" "req", DbOp.save "a" { status := some "s" }]) "b" = none :=
  ⟨by decide,
   get_unknown_project_not_found
     [DbOp.create "a" "req", DbOp.save "a" { status := some "s" }] "b" (by decide)⟩

/-- **C10.** `save_project_state` on a `project_id` that is not in the store
completes normally (the model is a total function, mirroring the UPDATE that
matches zero rows and raises nothing) and leaves the store entirely
unchanged, even when the update names at least one field: an update to an
unknown identifier is a silent no-op, not an error. -/
theorem save_unknown_project_noop (db : List ProjectRecord) (pid : String)
    (u : ProjectUpdate) (h1 : ∀ r ∈ db, r.project_id ≠ pid)
    (_h2 : namesAField u = true) :
    save_project_state db pid u = db ∧ get_project_details db pid = none := by
  refine ⟨save_unknown_noop db pid u h1, ?_⟩
  rw [get_project_details, List.find?_eq_none]
  intro r hr
  simp [h1 r hr]

/-- Witness for C10 at a concrete store and update. -/
theorem save_unknown_project_noop_witness :
    (∀ r ∈ [newRecord "a" "req"], r.project_id ≠ "b") ∧
    namesAField { status := some "x" } = true ∧
    save_project_state [newRecord "a" "req"] "b" { status := some "x" } =
      [newRecord "a" "req"] :=
  ⟨by decide, by decide,
   (save_unknown_project_noop [newRecord "a" "req"] "b" { status := some "x" }
      (by decide) (by decide)).1⟩

/-- **C1 counterexample.** On the all-success all-approve run the CLI
workflow (`run_quotebot`, `src/main.py` line 394) persists `email_approved`
between `pending_email_approval` and `completed`: the persisted status
sequence is not the eight-status sequence of the claim, and
`email_approved` lies outside the section 4.1 `StageStatus` enumeration. -/
theorem approve_run_status_trace_counterexample :
    statusTrace (run_quotebot "r" "p" 0 ⟨some (.obj []), some (.obj []), some "e"⟩
      [.approve] [.approve] [.approve]) ≠
      [ "pending_extraction", "pending_extraction_approval", "extracted_details_approved",
        "pending_quote_approval", "quote_approved", "availability_checked",
        "pending_email_approval", "completed" ] ∧
    "email_approved" ∈ statusTrace (run_quotebot "r" "p" 0
      ⟨some (.obj []), some (.obj []), some "e"⟩ [.approve] [.approve] [.approve]) ∧
    "email_approved" ∉ spec41StageStatus := by
  refine ⟨by decide, by decide, by decide⟩

/-- **C1 (amended).** On any run in which every service call succeeds,
deriving the service names from the approved quote raises nothing, and the
human approves unmodified at each of the three gates, the persisted status
sequence is exactly `pending_extraction`, `pending_extraction_approval`,
`extracted_details_approved`, `pending_quote_approval`, `quote_approved`,
`availability_checked`, `pending_email_approval`, `email_approved`,
`completed`, in that order — every value in the section 4.1 enumeration
except the additional `email_approved` the CLI workflow persists together
with the approved email just before `completed`. -/
theorem approve_run_status_trace (req pid : String) (today : Int)
    (e q : JsonVal) (em ns : String)
    (h : serviceNamesFromQuote q = some ns) :
    statusTrace (run_quotebot req pid today ⟨some e, some q, some em⟩
      [.approve] [.approve] [.approve]) =
    [ "pending_extraction", "pending_extraction_approval", "extracted_details_approved",
      "pending_quote_approval", "quote_approved", "availability_checked",
      "pending_email_approval", "email_approved", "completed" ] := by
  simp [run_quotebot, human_approval, humanApprovalStr, h, statusTrace]

/-- Witness for C1 (amended) at concrete artifacts. -/
theorem approve_run_status_trace_witness :
    serviceNamesFromQuote (.obj []) = some "" ∧
    statusTrace (run_quotebot "r" "p" 0 ⟨some (.obj []), some (.obj []), some "e"⟩
      [.approve] [.approve] [.approve]) =
    [ "pending_extraction", "pending_extraction_approval", "extracted_details_approved",
      "pending_quote_approval", "quote_approved", "availability_checked",
      "pending_email_approval", "email_approved", "completed" ] :=
  ⟨rfl, approve_run_status_trace "r" "p" 0 (.obj []) (.obj []) "e" "" rfl⟩

/-- **C2.** A reject resolved at any of the three gates makes the run
persist `aborted_by_human` and end there: the event sequence terminates with
that write, so no later extraction, quoting, availability or email-drafting
invocation occurs for the project. -/
theorem reject_aborts_and_stops (req pid : String) (today : Int) (o : Oracles)
    (g1 g2 g3 : List GateInput) (e a q f : JsonVal) (em ns : String) :
    (o.extractRes = some e → human_approval e g1 = some none →
      run_quotebot req pid today o g1 g2 g3 =
        [ .db (.create pid req), .callExtraction,
          .db (.save pid { extracted_details := some e,
                           status := some "pending_extraction_approval" }),
          .db (.save pid { status := some "aborted_by_human" }) ]) ∧
    (o.extractRes = some e → human_approval e g1 = some (some a) →
      o.quoteRes = some q → human_approval q g2 = some none →
      run_quotebot req pid today o g1 g2 g3 =
        [ .db (.create pid req), .callExtraction,
          .db (.save pid { extracted_details := some e,
                           status := some "pending_extraction_approval" }),
          .db (.save pid { extracted_details := some a,
                           status := some "extracted_details_approved" }),
          .callQuoting,
          .db (.save pid { quote_draft := some q,
                           status := some "pending_quote_approval" }),
          .db (.save pid { status := some "aborted_by_human" }) ]) ∧
    (o.extractRes = some e → human_approval e g1 = some (some a) →
      o.quoteRes = some q → human_approval q g2 = some (some f) →
      serviceNamesFromQuote f = some ns → o.emailRes = some em →
      humanApprovalStr em g3 = some none →
      run_quotebot req pid today o g1 g2 g3 =
        [ .db (.create pid req), .callExtraction,
          .db (.save pid { extracted_details := some e,
                           status := some "pending_extraction_approval" }),
          .db (.save pid { extracted_details := some a,
                           status := some "extracted_details_approved" }),
          .callQuoting,
          .db (.save pid { quote_draft := some q,
                           status := some "pending_quote_approval" }),
          .db (.save pid { final_quote := some f, status := some "quote_approved" }),
          .callAvailability,
          .db (.save pid { availability_info := some (check_availability_tool ns today),
                           status := some "availability_checked" }),
          .callEmailDraft,
          .db (.save pid { email_draft := some em,
                           status := some "pending_email_approval" }),
          .db (.save pid { status := some "aborted_by_human" }) ]) := by
  obtain ⟨oe, oq, om⟩ := o
  refine ⟨?_, ?_, ?_⟩
  · intro h1 h2
    subst h1
    simp [run_quotebot, h2]
  · intro h1 h2 h3 h4
    subst h1
    subst h3
    simp [run_quotebot, h2, h4]
  · intro h1 h2 h3 h4 h5 h6 h7
    subst h1
    subst h3
    subst h6
    simp [run_quotebot, h2, h4, h5, h7]

/-- Witness for C2: a reject at the first gate. -/
theorem reject_aborts_and_stops_witness :
    human_approval (.obj []) [GateInput.reject] = some none ∧
    run_quotebot "r" "p" 0 ⟨some (.obj []), none, none⟩ [GateInput.reject] [] [] =
      [ .db (.create "p" "r"), .callExtraction,
        .db (.save "p" { extracted_details := some (.obj []),
                         status := some "pending_extraction_approval" }),
        .db (.save "p" { status := some "aborted_by_human" }) ] :=
  ⟨rfl,
   (reject_aborts_and_stops "r" "p" 0 ⟨some (.obj []), none, none⟩ [GateInput.reject] [] []
      (.obj []) (.obj []) (.obj []) (.obj []) "" "").1 rfl rfl⟩

/-- **C3.** A raised collaborator call makes the run persist exactly the
matching failure status — `extraction_failed`, `quote_failed`,
`email_draft_failed` — and end there; such a failure write names only the
`status` column, so applying it to any record changes the status and leaves
every artifact field (customer_request, extracted_details, quote_draft,
final_quote, email_draft, availability_info) at its prior value. -/
theorem service_failure_terminal (req pid : String) (today : Int) (o : Oracles)
    (g1 g2 g3 : List GateInput) (e a q f : JsonVal) (ns s : String) (r : ProjectRecord) :
    (o.extractRes = none →
      run_quotebot req pid today o g1 g2 g3 =
        [ .db (.create pid req), .callExtraction,
          .db (.save pid { status := some "extraction_failed" }) ]) ∧
    (o.extractRes = some e → human_approval e g1 = some (some a) → o.quoteRes = none →
      run_quotebot req pid today o g1 g2 g3 =
        [ .db (.create pid req), .callExtraction,
          .db (.save pid { extracted_details := some e,
                           status := some "pending_extraction_approval" }),
          .db (.save pid { extracted_details := some a,
                           status := some "extracted_details_approved" }),
          .callQuoting, .db (.save pid { status := some "quote_failed" }) ]) ∧
    (o.extractRes = some e → human_approval e g1 = some (some a) →
      o.quoteRes = some q → human_approval q g2 = some (some f) →
      serviceNamesFromQuote f = some ns → o.emailRes = none →
      run_quotebot req pid today o g1 g2 g3 =
        [ .db (.create pid req), .callExtraction,
          .db (.save pid { extracted_details := some e,
                           status := some "pending_extraction_approval" }),
          .db (.save pid { extracted_details := some a,
                           status := some "extracted_details_approved" }),
          .callQuoting,
          .db (.save pid { quote_draft := some q,
                           status := some "pending_quote_approval" }),
          .db (.save pid { final_quote := some f, status := some "quote_approved" }),
          .callAvailability,
          .db (.save pid { availability_info := some (check_availability_tool ns today),
                           status := some "availability_checked" }),
          .callEmailDraft, .db (.save pid { status := some "email_draft_failed" }) ]) ∧
    (applyUpdate { status := some s } r = { r with status := s }) := by
  obtain ⟨oe, oq, om⟩ := o
  refine ⟨?_, ?_, ?_, rfl⟩
  · intro h1
    subst h1
    simp [run_quotebot]
  · intro h1 h2 h3
    subst h1
    subst h3
    simp [run_quotebot, h2]
  · intro h1 h2 h3 h4 h5 h6
    subst h1
    subst h3
    subst h6
    simp [run_quotebot, h2, h4, h5]

/-- Witness for C3: the extraction call raises. -/
theorem service_failure_terminal_witness :
    ((⟨none, none, none⟩ : Oracles).extractRes = none) ∧
    run_quotebot "r" "p" 0 ⟨none, none, none⟩ [] [] [] =
      [ .db (.create "p" "r"), .callExtraction,
        .db (.save "p" { status := some "extraction_failed" }) ] :=
  ⟨rfl,
   (service_failure_terminal "r" "p" 0 ⟨none, none, none⟩ [] [] []
      (.obj []) (.obj []) (.obj []) (.obj []) "" "x" (newRecord "p" "r")).1 rfl⟩

/-- **C6 counterexample.** The validate-and-re-prompt behaviour holds only
when the proposed artifact is a dict: `human_approval` dispatches on
`isinstance(data, dict)` (`src/main.py` lines 74-86), so at the quote gate
with a non-dict (yet structured JSON) proposal — here the quoting service
returned the JSON array `[]` — the replacement text `"not json"`, which
parses as nothing, is accepted as the new data, approved, and persisted as
`final_quote`: the run differs from the one without the malformed entry and
the record is corrupted by malformed replacement text. -/
theorem invalid_modify_nonobj_counterexample :
    human_approval (.arr []) [GateInput.modify "not json" none, GateInput.approve] =
      some (some (.str "not json")) ∧
    JsonVal.str "not json" ∈ finalQuoteWrites (run_quotebot "r" "p" 0
      ⟨some (.obj []), some (.arr []), some "e"⟩
      [.approve] [.modify "not json" none, .approve] [.approve]) ∧
    run_quotebot "r" "p" 0 ⟨some (.obj []), some (.arr []), some "e"⟩
        [.approve] [.modify "not json" none, .approve] [.approve] ≠
      run_quotebot "r" "p" 0 ⟨some (.obj []), some (.arr []), some "e"⟩
        [.approve] [.approve] [.approve] := by
  refine ⟨rfl, List.Mem.head _, ?_⟩
  intro h
  have h2 := congrArg finalQuoteWrites h
  rw [show finalQuoteWrites (run_quotebot "r" "p" 0
        ⟨some (.obj []), some (.arr []), some "e"⟩
        [.approve] [.modify "not json" none, .approve] [.approve]) =
      [JsonVal.str "not json"] from rfl,
      show finalQuoteWrites (run_quotebot "r" "p" 0
        ⟨some (.obj []), some (.arr []), some "e"⟩
        [.approve] [.approve] [.approve]) = [JsonVal.arr []] from rfl] at h2
  simp at h2

/-- **C6 (amended).** At a gate whose currently proposed artifact is a JSON
object (a Python dict — the shape the extraction and quoting prompts
request), a modify whose replacement text fails to parse is reported and
the human is re-prompted with the proposal unchanged: the gate resolves
exactly as if that entry had not been typed, and the whole run — hence
every record-store write — is unchanged, whether the gate guards the
extracted details or the quote draft; the store is not mutated until a
valid replacement is supplied and approved. When the proposed artifact is
any non-dict value the source instead accepts the raw text as the
replacement (see the counterexample), so the dict restriction is
necessary. -/
theorem invalid_modify_reprompts_dict (fs f2s : List (String × JsonVal)) (raw : String)
    (rest : List GateInput) (req pid : String) (today : Int)
    (oq : Option JsonVal) (om : Option String) (ga gb : List GateInput) :
    human_approval (.obj fs) (.modify raw none :: rest) =
      human_approval (.obj fs) rest ∧
    run_quotebot req pid today ⟨some (.obj fs), oq, om⟩ (.modify raw none :: rest) ga gb =
      run_quotebot req pid today ⟨some (.obj fs), oq, om⟩ rest ga gb ∧
    run_quotebot req pid today ⟨some (.obj fs), some (.obj f2s), om⟩ ga
        (.modify raw none :: rest) gb =
      run_quotebot req pid today ⟨some (.obj fs), some (.obj f2s), om⟩ ga rest gb := by
  refine ⟨rfl, rfl, ?_⟩
  cases h1 : human_approval (.obj fs) ga with
  | none => simp [run_quotebot, h1]
  | some r1 =>
    cases r1 with
    | none => simp [run_quotebot, h1]
    | some a => simp [run_quotebot, h1, human_approval]

/-- A human-typed quote replacement violating the arithmetic invariant:
valid JSON, so the gate accepts it without any schema or sum validation. -/
def badQuote : JsonVal :=
  .obj [ ("subtotal", .num 100), ("shipping", .num 50),
         ("total_estimated_cost", .num 999) ]

/-- A quote satisfying the arithmetic invariant. -/
def goodQuote : JsonVal :=
  .obj [ ("subtotal", .num 100), ("shipping", .num 50),
         ("total_estimated_cost", .num 150) ]

/-- **C7 counterexample.** The workflow validates no arithmetic: a modify at
the quote gate that replaces the draft with `badQuote`
(subtotal 100, shipping 50, total 999) is accepted once approved, and the
run persists `badQuote` as `final_quote` even though
`total_estimated_cost ≠ subtotal + shipping`. -/
theorem quote_invariant_counterexample :
    badQuote ∈ finalQuoteWrites (run_quotebot "r" "p" 0
      ⟨some (.obj []), some (.obj []), some "e"⟩
      [.approve] [.modify "txt" (some badQuote), .approve] [.approve]) ∧
    getNumField badQuote "subtotal" = some 100 ∧
    getNumField badQuote "shipping" = some 50 ∧
    getNumField badQuote "total_estimated_cost" = some 999 ∧
    (999 : Rat) ≠ 100 + 50 ∧
    quoteInvariant badQuote = false := by
  refine ⟨?_, rfl, rfl, rfl, by norm_num, ?_⟩
  · exact List.Mem.head _
  · have h : quoteInvariant badQuote =
        decide (getNumField badQuote "total_estimated_cost" = some (100 + 50)) := rfl
    rw [h, show getNumField badQuote "total_estimated_cost" = some 999 from rfl]
    rw [decide_eq_false_iff_not]
    intro hx
    rw [Option.some.injEq] at hx
    norm_num at hx

/-- **C7 (amended).** The workflow persists quote artifacts verbatim and
performs no arithmetic validation of its own: every value a run writes to
the `quote_draft` or `final_quote` column is either the quoting-service
output or a human-supplied modify replacement at the quote gate.
Consequently, whenever the quoting-service output and every modify
replacement satisfy `total_estimated_cost = subtotal + shipping` (for
numeric subtotal and shipping), so does every persisted quote; the
invariant of the claim holds only under that assumption on the producers,
not unconditionally. -/
theorem quote_invariant_preserved (req pid : String) (today : Int) (o : Oracles)
    (g1 g2 g3 : List GateInput)
    (hq : ∀ j, o.quoteRes = some j → quoteInvariant j = true)
    (hm : ∀ j ∈ modifyVals g2, quoteInvariant j = true) :
    ∀ j, (j ∈ quoteDraftWrites (run_quotebot req pid today o g1 g2 g3) ∨
          j ∈ finalQuoteWrites (run_quotebot req pid today o g1 g2 g3)) →
      quoteInvariant j = true := by
  obtain ⟨oe, oq, om⟩ := o
  intro j hj
  cases oe with
  | none =>
    simp [run_quotebot, quoteDraftWrites, finalQuoteWrites] at hj
  | some e =>
    cases h1 : human_approval e g1 with
    | none =>
      simp [run_quotebot, quoteDraftWrites, finalQuoteWrites, h1] at hj
    | some r1 =>
      cases r1 with
      | none =>
        simp [run_quotebot, quoteDraftWrites, finalQuoteWrites, h1] at hj
      | some a =>
        cases oq with
        | none =>
          simp [run_quotebot, quoteDraftWrites, finalQuoteWrites, h1] at hj
        | some q =>
          have hqv : quoteInvariant q = true := hq q rfl
          cases h2 : human_approval q g2 with
          | none =>
            simp [run_quotebot, quoteDraftWrites, finalQuoteWrites, h1, h2] at hj
            rwa [hj]
          | some r2 =>
            cases r2 with
            | none =>
              simp [run_quotebot, quoteDraftWrites, finalQuoteWrites, h1, h2] at hj
              rwa [hj]
            | some f =>
              have hfv : quoteInvariant f = true := by
                rcases human_approval_result g2 q f h2 with rfl | hmem | ⟨s, rfl⟩
                · exact hqv
                · exact hm f hmem
                · rfl
              cases hsn : serviceNamesFromQuote f with
              | none =>
                simp [run_quotebot, quoteDraftWrites, finalQuoteWrites, h1, h2, hsn] at hj
                rcases hj with rfl | rfl
                · exact hqv
                · exact hfv
              | some ns =>
                cases om with
                | none =>
                  simp [run_quotebot, quoteDraftWrites, finalQuoteWrites, h1, h2, hsn] at hj
                  rcases hj with rfl | rfl
                  · exact hqv
                  · exact hfv
                | some em =>
                  cases h3 : humanApprovalStr em g3 with
                  | none =>
                    simp [run_quotebot, quoteDraftWrites, finalQuoteWrites, h1, h2, hsn, h3] at hj
                    rcases hj with rfl | rfl
                    · exact hqv
                    · exact hfv
                  | some r3 =>
                    cases r3 with
                    | none =>
                      simp [run_quotebot, quoteDraftWrites, finalQuoteWrites, h1, h2, hsn, h3] at hj
                      rcases hj with rfl | rfl
                      · exact hqv
                      · exact hfv
                    | some fe =>
                      simp [run_quotebot, quoteDraftWrites, finalQuoteWrites, h1, h2, hsn, h3] at hj
                      rcases hj with rfl | rfl
                      · exact hqv
                      · exact hfv

/-- Witness for C7 (amended): a conforming quoting-service output flows
through an all-approve run. -/
theorem quote_invariant_preserved_witness :
    quoteInvariant goodQuote = true :=
  quote_invariant_preserved "r" "p" 0 ⟨some (.obj []), some goodQuote, some "e"⟩
    [.approve] [.approve] [.approve]
    (fun j h => by
      rw [show (⟨some (.obj []), some goodQuote, some "e"⟩ : Oracles).quoteRes =
            some goodQuote from rfl] at h
      rw [Option.some.injEq] at h
      rw [← h]
      rw [show quoteInvariant goodQuote =
            decide (getNumField goodQuote "total_estimated_cost" = some (100 + 50)) from rfl]
      rw [show getNumField goodQuote "total_estimated_cost" = some 150 from rfl]
      rw [decide_eq_true_eq, Option.some.injEq]
      norm_num)
    (fun j h => by simp [modifyVals] at h)
    goodQuote (Or.inl (List.Mem.head _))
